import Mathlib

/-!
  # Workboard task manager: model and verification

  A shallow embedding of the task-manager backend (`backend/main.py` and
  `backend/database.py`): a FastAPI application over a SQLite table
  `task_items` accessed through SQLAlchemy.

  Modelling choices, all read off the source:

  * A table row (`TaskItem` in `database.py`) carries `id`, `title` (column
    declared NOT NULL), `notes` (nullable), `progress` (nullable column,
    default `"pending"`), `added_on`, `deadline` (nullable).  Timestamps are
    modelled as naturals; the store is the list of rows in rowid order.
  * `id` is an SQLite `INTEGER PRIMARY KEY` without `AUTOINCREMENT`
    (`sqlite_autoincrement` is not set on the table), so an insert assigns
    one more than the largest rowid currently in the table, `1` on an empty
    table.  Every insert appends, so rowid order and insertion order of the
    live rows coincide.
  * Request bodies are parsed and validated by pydantic before a handler
    body runs.  Presence of a field in the request is distinct from its
    value being null, so an optional payload field is `Option (Option _)`:
    `none` = absent, `some none` = explicit null, `some (some v)` = value.
  * `NewTask`'s `progress` validator is declared without `always=True`, so
    it runs only when the field is supplied (an omitted `progress` takes the
    default `"pending"` unchecked); `EditTask`'s `check_progress` has
    `pre=True, always=True` and accepts `None` explicitly.
  * `update_task` applies `payload.dict(exclude_unset=True)` via `setattr`,
    then commits; a commit that would store NULL in the NOT NULL `title`
    column fails, leaving the durable store unchanged (a server error).
  * `ORDER BY added_on DESC` over the table scan (rowid order) is modelled
    as a stable merge sort by the descending comparator.
-/

deriving instance DecidableEq for Except

namespace Workboard

/-- Python `str.strip()`: remove leading and trailing whitespace. -/
def pyStrip (s : String) : String :=
  ⟨((s.data.dropWhile Char.isWhitespace).reverse.dropWhile Char.isWhitespace).reverse⟩

/-- `VALID_STATUSES` from `main.py`. -/
def VALID_STATUSES : List String := ["pending", "in_progress", "completed"]

/-- The validation message of the two progress validators (the enumeration
order inside the message is irrelevant to every claim). -/
def progressMsg : String := "progress must be one of: pending, in_progress, completed"

/-- A row of the `task_items` table (`database.py`, class `TaskItem`). -/
structure TaskItem where
  id : Nat
  title : String
  notes : Option String
  progress : Option String
  added_on : Nat
  deadline : Option Nat
deriving Repr, DecidableEq

/-- The durable store: the rows of `task_items` in rowid order. -/
structure Store where
  rows : List TaskItem
deriving Repr, DecidableEq

def emptyStore : Store := ⟨[]⟩

/-- The largest rowid in use (`0` on an empty table). -/
def maxId (s : Store) : Nat := (s.rows.map TaskItem.id).foldr max 0

/-- SQLite rowid assignment for an `INTEGER PRIMARY KEY` column without
`AUTOINCREMENT`: one more than the largest rowid currently in the table. -/
def nextId (s : Store) : Nat := maxId s + 1

/-- The raw body of a create request (`POST /api/tasks`).  `title` is a
required `str` field of `NewTask`; `notes` and `deadline` make no
absent/null distinction downstream, `progress` does (the validator runs
exactly when the field is supplied). -/
structure RawNewTask where
  title : String
  notes : Option String
  progress : Option (Option String)
  deadline : Option Nat
deriving Repr, DecidableEq

/-- A `NewTask` that passed pydantic validation: `title` stripped and
non-blank, `progress` one of `VALID_STATUSES` (default `"pending"`). -/
structure NewTask where
  title : String
  notes : Option String
  progress : String
  deadline : Option Nat
deriving Repr, DecidableEq

/-- pydantic parsing of `NewTask`: `title_must_exist` rejects a title that is
empty or whitespace-only and strips it (`return v.strip()`);
`progress_must_be_valid` runs only on a supplied value (including an explicit
null, which is never in `VALID_STATUSES`); an omitted `progress` defaults to
`"pending"`. -/
def validateNewTask (p : RawNewTask) : Except String NewTask :=
  if pyStrip p.title = "" then .error "title cannot be blank"
  else
    match p.progress with
    | none => .ok ⟨pyStrip p.title, p.notes, "pending", p.deadline⟩
    | some none => .error progressMsg
    | some (some v) =>
      if VALID_STATUSES.contains v then .ok ⟨pyStrip p.title, p.notes, v, p.deadline⟩
      else .error progressMsg

/-- The raw body of an update request (`PUT /api/tasks/{task_id}`), class
`EditTask`: every field optional and nullable, and presence in the request
(`__fields_set__`) is tracked separately from the value. -/
structure RawEditTask where
  title : Option (Option String)
  notes : Option (Option String)
  progress : Option (Option String)
  deadline : Option (Option Nat)
deriving Repr, DecidableEq

/-- pydantic parsing of `EditTask`: the single validator `check_progress`
(`pre=True, always=True`) rejects a non-null `progress` outside
`VALID_STATUSES` and passes everything else through unchanged — an explicit
null `progress` satisfies `v is not None and ...` vacuously. -/
def validateEditTask (p : RawEditTask) : Except String RawEditTask :=
  match p.progress with
  | some (some v) => if VALID_STATUSES.contains v then .ok p else .error progressMsg
  | _ => .ok p

/-- The client-visible outcomes: 422 (pydantic validation error), 404
(`fetch_task_or_404`), and an opaque server error (a failed commit). -/
inductive ApiError where
  | invalidInput : String → ApiError
  | notFound : Nat → ApiError
  | serverError : ApiError
deriving Repr, DecidableEq

/-- `db.query(TaskItem).filter(TaskItem.id == task_id).first()`. -/
def findTask (s : Store) (i : Nat) : Option TaskItem :=
  s.rows.find? (fun t => t.id == i)

/-- `create_task`: pydantic validation of the body, then an insert that
assigns the next rowid and stamps `added_on` with the current time
(`default=datetime.utcnow`). -/
def createTask (s : Store) (p : RawNewTask) (now : Nat) :
    Except ApiError (TaskItem × Store) :=
  match validateNewTask p with
  | .error e => .error (.invalidInput e)
  | .ok q =>
    let task : TaskItem := ⟨nextId s, q.title, q.notes, some q.progress, now, q.deadline⟩
    .ok (task, ⟨s.rows ++ [task]⟩)

/-- The descending comparator of `ORDER BY added_on DESC`. -/
def taskLE (a b : TaskItem) : Bool := b.added_on ≤ a.added_on

/-- `get_all_tasks`: `db.query(TaskItem).order_by(TaskItem.added_on.desc())`,
a stable sort of the table scan (rowid order). -/
def listTasks (s : Store) : List TaskItem := s.rows.mergeSort taskLE

/-- `get_single_task`: `fetch_task_or_404`. -/
def getTask (s : Store) (i : Nat) : Except ApiError TaskItem :=
  match findTask s i with
  | none => .error (.notFound i)
  | some t => .ok t

/-- The `setattr` loop of `update_task` over exactly the fields present in
`payload.dict(exclude_unset=True)` (an absent field keeps the stored value,
a present field overwrites it, null included), followed by the commit-time
NOT NULL constraint on the `title` column: `none` is a failed commit. -/
def applyEdit (q : RawEditTask) (task : TaskItem) : Option TaskItem :=
  match (match q.title with | none => some task.title | some v => v) with
  | none => none
  | some ttl =>
    some ⟨task.id, ttl,
      (match q.notes with | none => task.notes | some v => v),
      (match q.progress with | none => task.progress | some v => v),
      task.added_on,
      (match q.deadline with | none => task.deadline | some v => v)⟩

/-- `update_task`: the body is parsed/validated first (pydantic runs before
the handler body), then `fetch_task_or_404`, then the `setattr` loop and the
commit; the committed row keeps its rowid, so the table order is unchanged. -/
def updateTask (s : Store) (i : Nat) (p : RawEditTask) :
    Except ApiError (TaskItem × Store) :=
  match validateEditTask p with
  | .error e => .error (.invalidInput e)
  | .ok q =>
    match findTask s i with
    | none => .error (.notFound i)
    | some task =>
      match applyEdit q task with
      | none => .error .serverError
      | some task2 => .ok (task2, ⟨s.rows.map (fun t => if t.id == i then task2 else t)⟩)

/-- `remove_task`: `fetch_task_or_404`, then `db.delete(task)` removes that
row; 204 with no content on success. -/
def deleteTask (s : Store) (i : Nat) : Except ApiError Store :=
  match findTask s i with
  | none => .error (.notFound i)
  | some _ => .ok ⟨s.rows.eraseP (fun t => t.id == i)⟩

/-- One inbound request, with the creation time attached to a create. -/
inductive Op where
  | create : RawNewTask → Nat → Op
  | update : Nat → RawEditTask → Op
  | delete : Nat → Op
deriving Repr

/-- The durable store after a request: a rejected or failed request commits
nothing (validation errors and 404 precede any mutation; a failed commit is
rolled back). -/
def applyOp (s : Store) : Op → Store
  | .create p now =>
    match createTask s p now with
    | .ok r => r.2
    | .error _ => s
  | .update i p =>
    match updateTask s i p with
    | .ok r => r.2
    | .error _ => s
  | .delete i =>
    match deleteTask s i with
    | .ok s2 => s2
    | .error _ => s

/-- The store reached from an empty table by a sequence of requests. -/
def runOps (ops : List Op) : Store := ops.foldl applyOp emptyStore

/-- The ids of the records currently in the store. -/
def idsOf (s : Store) : List Nat := s.rows.map TaskItem.id

/-! ## Concrete fixtures

The records produced by creating tasks titled "A", "B", "C" at times 1, 2, 3
on an initially empty store, and the stores along the way. -/

def taskA : TaskItem := ⟨1, "A", none, some "pending", 1, none⟩

def taskB : TaskItem := ⟨2, "B", none, some "pending", 2, none⟩

def taskC : TaskItem := ⟨3, "C", none, some "pending", 3, none⟩

def storeA : Store := ⟨[taskA]⟩

def storeAB : Store := ⟨[taskA, taskB]⟩

def storeABC : Store := ⟨[taskA, taskB, taskC]⟩

/-! ## Facts about `pyStrip`

A string is blank (empty or whitespace-only) exactly when `pyStrip` sends it
to the empty string; a non-blank string stays non-blank under `pyStrip`. -/

theorem pyStrip_eq_empty_iff (s : String) :
    pyStrip s = "" ↔ ∀ c ∈ s.data, c.isWhitespace := by
  constructor
  · intro h c hc
    have hd : ((s.data.dropWhile Char.isWhitespace).reverse.dropWhile
        Char.isWhitespace).reverse = [] := congrArg String.data h
    rw [List.reverse_eq_nil_iff, List.dropWhile_eq_nil_iff] at hd
    have hA : ∀ x ∈ s.data.dropWhile Char.isWhitespace, x.isWhitespace := by
      intro x hx
      exact hd x (List.mem_reverse.mpr hx)
    have hsplit : s.data.takeWhile Char.isWhitespace ++
        s.data.dropWhile Char.isWhitespace = s.data :=
      List.takeWhile_append_dropWhile Char.isWhitespace s.data
    rw [← hsplit] at hc
    rcases List.mem_append.mp hc with h1 | h2
    · exact List.mem_takeWhile_imp h1
    · exact hA _ h2
  · intro h
    apply String.ext
    show ((s.data.dropWhile Char.isWhitespace).reverse.dropWhile
        Char.isWhitespace).reverse = []
    rw [List.reverse_eq_nil_iff, List.dropWhile_eq_nil_iff]
    intro x hx
    exact h x ((List.dropWhile_sublist Char.isWhitespace).subset (List.mem_reverse.mp hx))

theorem pyStrip_pyStrip_ne_empty {s : String} (h : pyStrip s ≠ "") :
    pyStrip (pyStrip s) ≠ "" := by
  intro h2
  rw [pyStrip_eq_empty_iff] at h2
  apply h
  have hne : ((s.data.dropWhile Char.isWhitespace).reverse.dropWhile
      Char.isWhitespace) ≠ [] := by
    intro hB
    apply h
    apply String.ext
    show ((s.data.dropWhile Char.isWhitespace).reverse.dropWhile
        Char.isWhitespace).reverse = ([] : List Char)
    rw [hB]
    rfl
  have hhead := List.head_dropWhile_not Char.isWhitespace
    (s.data.dropWhile Char.isWhitespace).reverse hne
  have hmem : ((s.data.dropWhile Char.isWhitespace).reverse.dropWhile
      Char.isWhitespace).head hne ∈ (pyStrip s).data :=
    List.mem_reverse.mpr (List.head_mem hne)
  have := h2 _ hmem
  simp [this] at hhead

theorem pyStrip_empty : pyStrip "" = "" := rfl

/-! ## Characterizations of validation and of the five operations -/

theorem validateNewTask_ok {p : RawNewTask} {q : NewTask}
    (h : validateNewTask p = .ok q) :
    q.title = pyStrip p.title ∧ pyStrip p.title ≠ "" ∧
      q.notes = p.notes ∧ q.deadline = p.deadline ∧
      (p.progress = none → q.progress = "pending") ∧
      (∀ v, p.progress = some (some v) → q.progress = v) := by
  unfold validateNewTask at h
  split at h
  · cases h
  · rename_i hblank
    split at h
    · rename_i hp
      cases h
      simp [hblank, hp]
    · cases h
    · rename_i v hp
      split at h
      · cases h
        simp [hblank, hp]
      · cases h

theorem createTask_ok {s : Store} {p : RawNewTask} {now : Nat} {t : TaskItem} {s' : Store}
    (h : createTask s p now = .ok (t, s')) :
    ∃ q, validateNewTask p = .ok q ∧
      t = ⟨nextId s, q.title, q.notes, some q.progress, now, q.deadline⟩ ∧
      s' = ⟨s.rows ++ [t]⟩ := by
  unfold createTask at h
  split at h
  · cases h
  · rename_i q hq
    cases h
    exact ⟨q, hq, rfl, rfl⟩

theorem validateEditTask_ok_eq {p q : RawEditTask} (h : validateEditTask p = .ok q) :
    q = p := by
  unfold validateEditTask at h
  split at h
  · split at h
    · cases h; rfl
    · cases h
  · cases h; rfl

theorem applyEdit_some {q : RawEditTask} {task t2 : TaskItem}
    (h : applyEdit q task = some t2) :
    t2.id = task.id ∧ t2.added_on = task.added_on ∧
      (q.title = none → t2.title = task.title) ∧
      (∀ v, q.title = some (some v) → t2.title = v) ∧
      (q.notes = none → t2.notes = task.notes) ∧
      (∀ v, q.notes = some v → t2.notes = v) ∧
      (q.progress = none → t2.progress = task.progress) ∧
      (∀ v, q.progress = some v → t2.progress = v) ∧
      (q.deadline = none → t2.deadline = task.deadline) ∧
      (∀ v, q.deadline = some v → t2.deadline = v) := by
  unfold applyEdit at h
  split at h
  · cases h
  · rename_i ttl httl
    cases h
    refine ⟨rfl, rfl, ?_, ?_, ?_, ?_, ?_, ?_, ?_, ?_⟩
    · intro hq; rw [hq] at httl; simpa using httl.symm
    · intro v hq; rw [hq] at httl; simpa using httl.symm
    · intro hq; simp [hq]
    · intro v hq; simp [hq]
    · intro hq; simp [hq]
    · intro v hq; simp [hq]
    · intro hq; simp [hq]
    · intro v hq; simp [hq]

theorem updateTask_ok {s : Store} {i : Nat} {p : RawEditTask} {t' : TaskItem} {s' : Store}
    (h : updateTask s i p = .ok (t', s')) :
    ∃ task, validateEditTask p = .ok p ∧ findTask s i = some task ∧
      applyEdit p task = some t' ∧
      s'.rows = s.rows.map (fun r => if r.id == i then t' else r) := by
  unfold updateTask at h
  split at h
  · cases h
  · rename_i q hq
    obtain rfl := validateEditTask_ok_eq hq
    split at h
    · cases h
    · rename_i task hfind
      split at h
      · cases h
      · rename_i t2 happ
        cases h
        exact ⟨task, hq, hfind, happ, rfl⟩

/-! ## Facts about the recency ordering -/

theorem taskLE_trans (a b c : TaskItem) : taskLE a b → taskLE b c → taskLE a c := by
  simp only [taskLE, decide_eq_true_eq]
  omega

theorem taskLE_total (a b : TaskItem) : taskLE a b || taskLE b a := by
  simp only [taskLE, Bool.or_eq_true, decide_eq_true_eq]
  omega

theorem listTasks_perm (s : Store) : (listTasks s).Perm s.rows :=
  List.mergeSort_perm s.rows taskLE

theorem listTasks_sorted (s : Store) :
    (listTasks s).Pairwise (fun a b => b.added_on ≤ a.added_on) := by
  have h := List.sorted_mergeSort taskLE_trans taskLE_total s.rows
  exact h.imp (by simp [taskLE])

theorem listTasks_stable (s : Store) (k : Nat) :
    (listTasks s).filter (fun t => t.added_on == k) =
      s.rows.filter (fun t => t.added_on == k) := by
  have hpair : (s.rows.filter (fun t => t.added_on == k)).Pairwise
      (fun a b => taskLE a b = true) := by
    apply List.pairwise_of_forall_mem_list
    intro a ha b hb
    have ha2 := (List.mem_filter.mp ha).2
    have hb2 := (List.mem_filter.mp hb).2
    simp only [beq_iff_eq] at ha2 hb2
    simp [taskLE, ha2, hb2]
  have hsub : List.Sublist (s.rows.filter (fun t => t.added_on == k)) (listTasks s) :=
    List.sublist_mergeSort taskLE_trans taskLE_total hpair (List.filter_sublist s.rows)
  have hself : (s.rows.filter (fun t => t.added_on == k)).filter
      (fun t => t.added_on == k) = s.rows.filter (fun t => t.added_on == k) := by
    rw [List.filter_eq_self]
    intro a ha
    exact (List.mem_filter.mp ha).2
  have hsub2 : List.Sublist (s.rows.filter (fun t => t.added_on == k))
      ((listTasks s).filter (fun t => t.added_on == k)) := by
    have := hsub.filter (fun t => t.added_on == k)
    rwa [hself] at this
  have hperm : List.Perm ((listTasks s).filter (fun t => t.added_on == k))
      (s.rows.filter (fun t => t.added_on == k)) :=
    (listTasks_perm s).filter _
  exact (hsub2.eq_of_length hperm.symm.length_eq).symm

/-! ## The id invariant -/

theorem le_maxId {s : Store} {t : TaskItem} (h : t ∈ s.rows) : t.id ≤ maxId s := by
  have hgen : ∀ (l : List Nat), ∀ x ∈ l, x ≤ l.foldr max 0 := by
    intro l
    induction l with
    | nil => simp
    | cons a l ih =>
      intro x hx
      rcases List.mem_cons.mp hx with rfl | hx
      · exact Nat.le_max_left _ _
      · exact Nat.le_trans (ih x hx) (Nat.le_max_right _ _)
  exact hgen _ _ (List.mem_map_of_mem TaskItem.id h)

theorem nextId_notMem {s : Store} : nextId s ∉ idsOf s := by
  intro hmem
  obtain ⟨t, ht, hid⟩ := List.mem_map.mp hmem
  have := le_maxId ht
  rw [hid] at this
  simp [nextId] at this

theorem idsOf_updateTask {s : Store} {i : Nat} {p : RawEditTask} {t' : TaskItem}
    {s' : Store} (h : updateTask s i p = .ok (t', s')) : idsOf s' = idsOf s := by
  obtain ⟨task, hval, hfind, happ, hrows⟩ := updateTask_ok h
  have hid : t'.id = task.id := (applyEdit_some happ).1
  have htaskid : task.id = i := by simpa using List.find?_some hfind
  unfold idsOf
  rw [hrows, List.map_map]
  apply List.map_congr_left
  intro r hr
  by_cases hri : (r.id == i) = true
  · have h2 : r.id = i := by simpa using hri
    simp [Function.comp, hri, hid, htaskid, h2]
  · simp [Function.comp, hri]

theorem nodup_idsOf_applyOp {s : Store} (h : (idsOf s).Nodup) (op : Op) :
    (idsOf (applyOp s op)).Nodup := by
  cases op with
  | create p now =>
    simp only [applyOp]
    split
    · rename_i r hr
      obtain ⟨t, s'⟩ := r
      obtain ⟨q, hq, ht, hs'⟩ := createTask_ok hr
      have hid : t.id = nextId s := by rw [ht]
      subst hs'
      simp only [idsOf, List.map_append, List.map_cons, List.map_nil]
      rw [List.nodup_append]
      refine ⟨h, List.nodup_singleton _, ?_⟩
      intro a ha hb
      simp only [List.mem_singleton] at hb
      subst hb
      rw [hid] at ha
      exact nextId_notMem ha
    · exact h
  | update i p =>
    simp only [applyOp]
    split
    · rename_i r hr
      obtain ⟨t', s'⟩ := r
      rw [idsOf_updateTask hr]
      exact h
    · exact h
  | delete i =>
    simp only [applyOp]
    split
    · rename_i s2 hs2
      unfold deleteTask at hs2
      split at hs2
      · cases hs2
      · cases hs2
        exact (((List.eraseP_sublist (p := fun t => t.id == i) s.rows)).map
          TaskItem.id).nodup h
    · exact h

theorem nodup_idsOf_runOps (ops : List Op) : (idsOf (runOps ops)).Nodup := by
  suffices h : ∀ s, (idsOf s).Nodup → (idsOf (ops.foldl applyOp s)).Nodup by
    exact h emptyStore (by simp [idsOf, emptyStore])
  induction ops with
  | nil => intro s h; exact h
  | cons op ops ih =>
    intro s h
    exact ih _ (nodup_idsOf_applyOp h op)

theorem id_ne_of_mem_eraseP {l : List TaskItem} {i : Nat}
    (hnd : (l.map TaskItem.id).Nodup) {u : TaskItem}
    (hu : u ∈ l.eraseP (fun t => t.id == i)) : u.id ≠ i := by
  induction l with
  | nil => simp [List.eraseP] at hu
  | cons a l ih =>
    rw [List.map_cons, List.nodup_cons] at hnd
    by_cases ha : (a.id == i) = true
    · rw [List.eraseP_cons_of_pos (p := fun t : TaskItem => t.id == i) ha] at hu
      intro hui
      apply hnd.1
      have hai : a.id = i := by simpa using ha
      rw [hai, ← hui]
      exact List.mem_map_of_mem TaskItem.id hu
    · rw [List.eraseP_cons_of_neg (p := fun t : TaskItem => t.id == i) ha] at hu
      rcases List.mem_cons.mp hu with rfl | hu
      · simpa using ha
      · exact ih hnd.2 hu

/-! ## The claims -/

/-- Claim C1, counterexample: the task created with title "a" is updated with
the whitespace-only title "   "; the update succeeds and stores that title
verbatim, so a record with a whitespace-only (untrimmed) title sits in the
store — `EditTask` has no title validator. -/
theorem c1_blank_title_counterexample :
    updateTask ⟨[⟨1, "a", none, some "pending", 1, none⟩]⟩ 1
        ⟨some (some "   "), none, none, none⟩ =
      .ok (⟨1, "   ", none, some "pending", 1, none⟩,
        ⟨[⟨1, "   ", none, some "pending", 1, none⟩]⟩) ∧
    pyStrip "   " = "" := ⟨by decide, by decide⟩

/-- Claim C1, amended: a title stored by the create operation is trimmed of
surrounding whitespace and is neither empty nor whitespace-only; the update
operation stores any supplied non-null title verbatim — no trimming, no blank
check — so the invariant extends only to records never updated with a blank
title. -/
theorem c1_title_amended :
    (∀ (s : Store) (p : RawNewTask) (now : Nat) (t : TaskItem) (s' : Store),
        createTask s p now = .ok (t, s') →
          t.title = pyStrip p.title ∧ t.title ≠ "" ∧ pyStrip t.title ≠ "") ∧
    (∀ (s : Store) (i : Nat) (p : RawEditTask) (t' : TaskItem) (s' : Store)
        (v : String),
        p.title = some (some v) → updateTask s i p = .ok (t', s') →
          t'.title = v) := by
  constructor
  · intro s p now t s' h
    obtain ⟨q, hq, ht, -⟩ := createTask_ok h
    obtain ⟨hqt, hne, -⟩ := validateNewTask_ok hq
    have htitle : t.title = pyStrip p.title := by rw [ht]; exact hqt
    refine ⟨htitle, ?_, ?_⟩
    · rw [htitle]; exact hne
    · rw [htitle]; exact pyStrip_pyStrip_ne_empty hne
  · intro s i p t' s' v hv h
    obtain ⟨task, -, -, happ, -⟩ := updateTask_ok h
    exact (applyEdit_some happ).2.2.2.1 v hv

/-- Witness for claim C1 (amended): creating a task with title " hi " on an
empty store stores the trimmed, non-blank title "hi". -/
theorem c1_title_amended_witness :
    (⟨1, "hi", none, some "pending", 5, none⟩ : TaskItem).title = pyStrip " hi " ∧
      (⟨1, "hi", none, some "pending", 5, none⟩ : TaskItem).title ≠ "" ∧
      pyStrip (⟨1, "hi", none, some "pending", 5, none⟩ : TaskItem).title ≠ "" :=
  c1_title_amended.1 emptyStore ⟨" hi ", none, none, none⟩ 5
    ⟨1, "hi", none, some "pending", 5, none⟩
    ⟨[⟨1, "hi", none, some "pending", 5, none⟩]⟩ (by decide)

/-- Claim C2, counterexample: an update whose partial set carries the explicit
null `progress` is not rejected — `check_progress` passes `None` through, the
null field survives `exclude_unset`, and the update stores a null progress. -/
theorem c2_null_progress_counterexample :
    updateTask ⟨[⟨1, "a", none, some "pending", 1, none⟩]⟩ 1
        ⟨none, none, some none, none⟩ =
      .ok (⟨1, "a", none, none, 1, none⟩, ⟨[⟨1, "a", none, none, 1, none⟩]⟩) := by
  decide

/-- Claim C2, amended: an update whose partial set carries a non-null
`progress` outside {pending, in_progress, completed} — "archived" included —
is rejected with InvalidInput whatever the id, and the store is unchanged; an
explicit null `progress`, however, passes validation, and a successful update
carrying it stores a null progress. -/
theorem c2_progress_amended :
    (∀ (s : Store) (i : Nat) (p : RawEditTask) (v : String),
        p.progress = some (some v) → VALID_STATUSES.contains v = false →
          updateTask s i p = .error (.invalidInput progressMsg) ∧
            applyOp s (.update i p) = s) ∧
    (∀ p : RawEditTask, p.progress = some none → validateEditTask p = .ok p) ∧
    (∀ (s : Store) (i : Nat) (p : RawEditTask) (t' : TaskItem) (s' : Store),
        p.progress = some none → updateTask s i p = .ok (t', s') →
          t'.progress = none) := by
  refine ⟨?_, ?_, ?_⟩
  · intro s i p v hp hc
    have hc2 : v ∉ VALID_STATUSES := by simpa using hc
    have herr : updateTask s i p = .error (.invalidInput progressMsg) := by
      simp [updateTask, validateEditTask, hp, hc2]
    exact ⟨herr, by simp [applyOp, herr]⟩
  · intro p hp
    simp [validateEditTask, hp]
  · intro s i p t' s' hp h
    obtain ⟨task, -, -, happ, -⟩ := updateTask_ok h
    exact (applyEdit_some happ).2.2.2.2.2.2.2.1 none hp

/-- Witness for claim C2 (amended): "archived" on id 7 of the empty store is
rejected with InvalidInput and mutates nothing; the all-null-progress body
passes validation; the concrete null-progress update ends with a null
progress. -/
theorem c2_progress_amended_witness :
    (updateTask emptyStore 7 ⟨none, none, some (some "archived"), none⟩ =
        .error (.invalidInput progressMsg) ∧
      applyOp emptyStore (.update 7 ⟨none, none, some (some "archived"), none⟩) =
        emptyStore) ∧
    validateEditTask ⟨none, none, some none, none⟩ =
      .ok ⟨none, none, some none, none⟩ ∧
    (⟨1, "a", none, none, 1, none⟩ : TaskItem).progress = none :=
  ⟨c2_progress_amended.1 emptyStore 7 ⟨none, none, some (some "archived"), none⟩
      "archived" rfl (by decide),
   c2_progress_amended.2.1 ⟨none, none, some none, none⟩ rfl,
   c2_progress_amended.2.2 ⟨[⟨1, "a", none, some "pending", 1, none⟩]⟩ 1
      ⟨none, none, some none, none⟩ ⟨1, "a", none, none, 1, none⟩
      ⟨[⟨1, "a", none, none, 1, none⟩]⟩ rfl (by decide)⟩

/-- Claim C3, counterexample: updating the nonexistent id 99999 on an empty
store with the invalid body carrying progress "archived" yields InvalidInput,
not NotFound — pydantic validates the body before the handler looks up the
id. -/
theorem c3_counterexample :
    updateTask emptyStore 99999 ⟨none, none, some (some "archived"), none⟩ =
      .error (.invalidInput progressMsg) ∧
    updateTask emptyStore 99999 ⟨none, none, some (some "archived"), none⟩ ≠
      .error (.notFound 99999) := ⟨by decide, by decide⟩

/-- Claim C3, amended: body validation precedes the id lookup — an update
naming an id absent from the store signals NotFound whenever the body passes
validation, and when the body fails validation the request signals
InvalidInput regardless of the id. -/
theorem c3_update_order_amended :
    (∀ (s : Store) (i : Nat) (p : RawEditTask), validateEditTask p = .ok p →
        findTask s i = none → updateTask s i p = .error (.notFound i)) ∧
    (∀ (s : Store) (i : Nat) (p : RawEditTask) (e : String),
        validateEditTask p = .error e →
          updateTask s i p = .error (.invalidInput e)) := by
  constructor
  · intro s i p hval hfind
    simp [updateTask, hval, hfind]
  · intro s i p e hval
    simp [updateTask, hval]

/-- Witness for claim C3 (amended): a valid empty body on the nonexistent id
99999 of the empty store yields NotFound. -/
theorem c3_update_order_amended_witness :
    updateTask emptyStore 99999 ⟨none, none, none, none⟩ =
      .error (.notFound 99999) :=
  c3_update_order_amended.1 emptyStore 99999 ⟨none, none, none, none⟩
    (by decide) (by decide)

/-- Claim C4, counterexample: create a task (issued id 1), delete it, create
another — the second create is issued id 1 again, because the rowid chosen is
one more than the largest currently in the table, not one more than the
largest ever issued. -/
theorem c4_id_reuse_counterexample :
    createTask emptyStore ⟨"a", none, none, none⟩ 1 =
      .ok (⟨1, "a", none, some "pending", 1, none⟩,
        ⟨[⟨1, "a", none, some "pending", 1, none⟩]⟩) ∧
    deleteTask ⟨[⟨1, "a", none, some "pending", 1, none⟩]⟩ 1 = .ok emptyStore ∧
    createTask emptyStore ⟨"b", none, none, none⟩ 2 =
      .ok (⟨1, "b", none, some "pending", 2, none⟩,
        ⟨[⟨1, "b", none, some "pending", 2, none⟩]⟩) :=
  ⟨by decide, by decide, by decide⟩

/-- Claim C4, amended: after any sequence of operations from the empty store,
the ids of the records currently in the store are pairwise distinct — each
create is issued one more than the largest id currently present, so an id is
unique among live records but may be re-issued after the record holding the
largest id is deleted. -/
theorem c4_ids_nodup_amended (ops : List Op) :
    ((runOps ops).rows.map TaskItem.id).Nodup :=
  nodup_idsOf_runOps ops

/-- Claim C5: `list()` returns the stored tasks ordered by `added_on`
descending — a permutation of the store, pairwise sorted most-recent-first,
and the tasks at any fixed `added_on` appear exactly in their store (rowid)
order, so ties are broken by insertion order; in particular, after creating
A then B then C at increasing times, the listing is [C, B, A]. -/
theorem c5_list_recency :
    (∀ s : Store, List.Perm (listTasks s) s.rows ∧
      (listTasks s).Pairwise (fun a b => b.added_on ≤ a.added_on) ∧
      ∀ k : Nat, (listTasks s).filter (fun t => t.added_on == k) =
        s.rows.filter (fun t => t.added_on == k)) ∧
    (createTask emptyStore ⟨"A", none, none, none⟩ 1 = .ok (taskA, storeA) ∧
      createTask storeA ⟨"B", none, none, none⟩ 2 = .ok (taskB, storeAB) ∧
      createTask storeAB ⟨"C", none, none, none⟩ 3 = .ok (taskC, storeABC) ∧
      listTasks storeABC = [taskC, taskB, taskA]) := by
  refine ⟨fun s => ⟨listTasks_perm s, listTasks_sorted s, listTasks_stable s⟩,
    by decide, by decide, by decide, ?_⟩
  simp [storeABC, taskA, taskB, taskC, listTasks, List.mergeSort,
    List.splitInTwo, List.merge, taskLE]

/-- Claim C6: a successful update applies exactly the fields present in the
partial set — every absent field keeps its stored value, a present field
takes the supplied value, and `id` and `added_on` (which `EditTask` cannot
carry at all) are unchanged. -/
theorem c6_update_frame {s : Store} {i : Nat} {p : RawEditTask}
    {task t' : TaskItem} {s' : Store} (hfind : findTask s i = some task)
    (h : updateTask s i p = .ok (t', s')) :
    t'.id = task.id ∧ t'.added_on = task.added_on ∧
      (p.title = none → t'.title = task.title) ∧
      (∀ v, p.title = some (some v) → t'.title = v) ∧
      (p.notes = none → t'.notes = task.notes) ∧
      (∀ v, p.notes = some v → t'.notes = v) ∧
      (p.progress = none → t'.progress = task.progress) ∧
      (∀ v, p.progress = some v → t'.progress = v) ∧
      (p.deadline = none → t'.deadline = task.deadline) ∧
      (∀ v, p.deadline = some v → t'.deadline = v) := by
  obtain ⟨task2, -, hfind2, happ, -⟩ := updateTask_ok h
  rw [hfind] at hfind2
  obtain rfl := Option.some.inj hfind2
  exact applyEdit_some happ

/-- Witness for claim C6: updating the stored task with only the field
`notes = "x"` sets `notes` to `"x"` and leaves `title`, `progress` and
`deadline` as they were. -/
theorem c6_update_frame_witness :
    (⟨1, "a", some "x", some "pending", 1, some 9⟩ : TaskItem).notes = some "x" ∧
    (⟨1, "a", some "x", some "pending", 1, some 9⟩ : TaskItem).title =
      (⟨1, "a", none, some "pending", 1, some 9⟩ : TaskItem).title ∧
    (⟨1, "a", some "x", some "pending", 1, some 9⟩ : TaskItem).progress =
      (⟨1, "a", none, some "pending", 1, some 9⟩ : TaskItem).progress ∧
    (⟨1, "a", some "x", some "pending", 1, some 9⟩ : TaskItem).deadline =
      (⟨1, "a", none, some "pending", 1, some 9⟩ : TaskItem).deadline := by
  have h := c6_update_frame
    (show findTask ⟨[⟨1, "a", none, some "pending", 1, some 9⟩]⟩ 1 =
      some ⟨1, "a", none, some "pending", 1, some 9⟩ by decide)
    (show updateTask ⟨[⟨1, "a", none, some "pending", 1, some 9⟩]⟩ 1
        ⟨none, some (some "x"), none, none⟩ =
      .ok (⟨1, "a", some "x", some "pending", 1, some 9⟩,
        ⟨[⟨1, "a", some "x", some "pending", 1, some 9⟩]⟩) by decide)
  exact ⟨h.2.2.2.2.2.1 (some "x") rfl, h.2.2.1 rfl,
    h.2.2.2.2.2.2.1 rfl, h.2.2.2.2.2.2.2.2.1 rfl⟩

/-- Claim C7: a create request is rejected exactly when its title is blank
after trimming or a supplied `progress` (explicit null included) is outside
the three enumerated values; every rejection is an InvalidInput and commits
nothing to the store. -/
theorem c7_create_validation (s : Store) (p : RawNewTask) (now : Nat) :
    ((∃ e, createTask s p now = .error e) ↔
      (pyStrip p.title = "" ∨ p.progress = some none ∨
        ∃ v, p.progress = some (some v) ∧ VALID_STATUSES.contains v = false)) ∧
    (∀ e, createTask s p now = .error e →
      applyOp s (.create p now) = s ∧ ∃ m, e = .invalidInput m) := by
  constructor
  · constructor
    · rintro ⟨e, he⟩
      by_cases hb : pyStrip p.title = ""
      · exact Or.inl hb
      · cases hp : p.progress with
        | none =>
          exfalso
          simp [createTask, validateNewTask, hb, hp] at he
        | some o =>
          cases o with
          | none => exact Or.inr (Or.inl rfl)
          | some v =>
            refine Or.inr (Or.inr ⟨v, rfl, ?_⟩)
            by_cases hc : VALID_STATUSES.contains v = true
            · exfalso
              have hc2 : v ∈ VALID_STATUSES := by simpa using hc
              simp [createTask, validateNewTask, hb, hp, hc2] at he
            · simpa using hc
    · intro hcond
      rcases hcond with hb | hp | ⟨v, hp, hc⟩
      · exact ⟨.invalidInput "title cannot be blank",
          by simp [createTask, validateNewTask, hb]⟩
      · by_cases hb : pyStrip p.title = ""
        · exact ⟨.invalidInput "title cannot be blank",
            by simp [createTask, validateNewTask, hb]⟩
        · exact ⟨.invalidInput progressMsg,
            by simp [createTask, validateNewTask, hb, hp]⟩
      · by_cases hb : pyStrip p.title = ""
        · exact ⟨.invalidInput "title cannot be blank",
            by simp [createTask, validateNewTask, hb]⟩
        · have hc2 : v ∉ VALID_STATUSES := by simpa using hc
          exact ⟨.invalidInput progressMsg,
            by simp [createTask, validateNewTask, hb, hp, hc2]⟩
  · intro e he
    refine ⟨by simp [applyOp, he], ?_⟩
    unfold createTask at he
    split at he
    · rename_i m hm
      cases he
      exact ⟨m, rfl⟩
    · cases he

/-- Witness for claim C7: the whitespace-only title "   " is rejected on the
empty store with an InvalidInput and no record is inserted. -/
theorem c7_create_validation_witness :
    applyOp emptyStore (.create ⟨"   ", none, none, none⟩ 0) = emptyStore ∧
      ∃ m, (ApiError.invalidInput "title cannot be blank") = .invalidInput m :=
  (c7_create_validation emptyStore ⟨"   ", none, none, none⟩ 0).2
    (.invalidInput "title cannot be blank") (by decide)

/-- Claim C8, counterexample: the first create on an empty store returns a
record with id 1; after that record is deleted, the next valid create again
returns a record with id 1 — an id that had previously been issued. -/
theorem c8_fresh_id_counterexample :
    (createTask emptyStore ⟨"a", none, none, none⟩ 1).map (fun r => r.1.id) =
      .ok 1 ∧
    deleteTask ⟨[⟨1, "a", none, some "pending", 1, none⟩]⟩ 1 = .ok emptyStore ∧
    (createTask emptyStore ⟨"b", none, none, none⟩ 2).map (fun r => r.1.id) =
      .ok 1 := ⟨by decide, by decide, by decide⟩

/-- Claim C8, amended: a successful create returns a record whose id differs
from the id of every record in the store at the time of the call (it is one
more than the largest id present), whose `progress` equals the supplied value
or `"pending"` when `progress` was omitted, and whose `added_on` is the
creation time; the record is appended to the store. -/
theorem c8_create_result_amended {s : Store} {p : RawNewTask} {now : Nat}
    {t : TaskItem} {s' : Store} (h : createTask s p now = .ok (t, s')) :
    (∀ u ∈ s.rows, u.id ≠ t.id) ∧ t.added_on = now ∧
      (p.progress = none → t.progress = some "pending") ∧
      (∀ v, p.progress = some (some v) → t.progress = some v) ∧
      s'.rows = s.rows ++ [t] := by
  obtain ⟨q, hq, ht, hs'⟩ := createTask_ok h
  obtain ⟨-, -, -, -, hpend, hsup⟩ := validateNewTask_ok hq
  refine ⟨?_, ?_, ?_, ?_, ?_⟩
  · intro u hu hid
    have h1 := le_maxId hu
    have h2 : t.id = nextId s := by rw [ht]
    rw [hid, h2] at h1
    simp only [nextId] at h1
    omega
  · rw [ht]
  · intro hp
    rw [ht]
    simp [hpend hp]
  · intro v hp
    rw [ht]
    simp [hsup v hp]
  · rw [hs']

/-- Witness for claim C8 (amended): creating "A" at time 1 on the empty store
returns the record with the fresh id 1, default progress `pending`, and
`added_on` 1, appended to the store. -/
theorem c8_create_result_amended_witness :
    (∀ u ∈ emptyStore.rows, u.id ≠ taskA.id) ∧ taskA.added_on = 1 ∧
      ((⟨"A", none, none, none⟩ : RawNewTask).progress = none →
        taskA.progress = some "pending") ∧
      (∀ v, (⟨"A", none, none, none⟩ : RawNewTask).progress = some (some v) →
        taskA.progress = some v) ∧
      storeA.rows = emptyStore.rows ++ [taskA] :=
  c8_create_result_amended
    (show createTask emptyStore ⟨"A", none, none, none⟩ 1 = .ok (taskA, storeA)
      by decide)

/-- Claim C9: deleting an existing id succeeds (with no content beyond the
resulting store), a subsequent get of that id yields NotFound, and no task
with that id appears in the listing; the ids of the store are assumed
pairwise distinct, which every store reachable through the API satisfies. -/
theorem c9_delete_removes {s : Store} {i : Nat} {task : TaskItem}
    (hnd : (s.rows.map TaskItem.id).Nodup) (hfind : findTask s i = some task) :
    ∃ s', deleteTask s i = .ok s' ∧ getTask s' i = .error (.notFound i) ∧
      ∀ u ∈ listTasks s', u.id ≠ i := by
  refine ⟨⟨s.rows.eraseP (fun t => t.id == i)⟩, ?_, ?_, ?_⟩
  · simp [deleteTask, hfind]
  · have hnone : (s.rows.eraseP (fun t => t.id == i)).find?
        (fun t => t.id == i) = none := by
      rw [List.find?_eq_none]
      intro x hx
      simpa using id_ne_of_mem_eraseP hnd hx
    simp [getTask, findTask, hnone]
  · intro u hu
    exact id_ne_of_mem_eraseP hnd ((listTasks_perm _).subset hu)

/-- Witness for claim C9: deleting id 1 from the one-task store leaves a store
in which getting id 1 is NotFound and the listing has no task with id 1. -/
theorem c9_delete_removes_witness :
    ∃ s', deleteTask storeA 1 = .ok s' ∧ getTask s' 1 = .error (.notFound 1) ∧
      ∀ u ∈ listTasks s', u.id ≠ 1 :=
  c9_delete_removes (by decide) (show findTask storeA 1 = some taskA by decide)

/-- Claim C10: an update carrying the empty partial set succeeds on an
existing id and is the identity — it returns the stored record unchanged and
leaves the store as it was; the ids of the store are assumed pairwise
distinct, which every store reachable through the API satisfies. -/
theorem c10_empty_update_identity {s : Store} {i : Nat} {task : TaskItem}
    (hnd : (s.rows.map TaskItem.id).Nodup) (hfind : findTask s i = some task) :
    updateTask s i ⟨none, none, none, none⟩ = .ok (task, s) := by
  have htask : task ∈ s.rows := List.mem_of_find?_eq_some hfind
  have htid : task.id = i := by simpa using List.find?_some hfind
  have happ : applyEdit ⟨none, none, none, none⟩ task = some task := rfl
  have hrows : s.rows.map (fun t => if t.id = i then task else t) = s.rows := by
    conv_rhs => rw [← List.map_id s.rows]
    apply List.map_congr_left
    intro r hr
    by_cases hri : r.id = i
    · have hr2 : r = task := by
        apply List.inj_on_of_nodup_map hnd hr htask
        rw [hri, htid]
      simp [hri, hr2]
    · simp [hri]
  simp [updateTask, validateEditTask, hfind, happ, hrows]

/-- Witness for claim C10: updating the one-task store at id 1 with the empty
partial set returns the stored record and the unchanged store. -/
theorem c10_empty_update_identity_witness :
    updateTask storeA 1 ⟨none, none, none, none⟩ = .ok (taskA, storeA) :=
  c10_empty_update_identity (by decide)
    (show findTask storeA 1 = some taskA by decide)

end Workboard
